import Mathlib

/-!
Shallow embedding of `rplugin/python3/iron/base.py` (iron.nvim session registry).

Python dicts that hold a REPL definition or a live REPL session are modelled
by `Session`, a record of optional fields: `none` means the key is absent from
the dict, `some v` means the key is present with value `v`.  The result of a
definition's `detect()` callable is modelled as the stored Boolean `detect`
(the claims fix the detection outcome, so evaluation is data here).

Python object identity matters in this code: `get_repl_template` returns the
dict object stored in the module-level `available_repls` list, and
`get_repl_for_ft` stores that same object in the registry, so mutations of a
session write through to the shared definition table.  We therefore model a
heap: `IronState.heap` is the store of dict objects, addressed by position;
`available` holds the addresses of the registered definitions (the
`available_repls` table, in registration order); `registry` is `self.__repl`,
an association list from file type to the address of its session object.

Host side effects (`nvim.command`, `jobsend`) are returned as data: the
mutators return the list of command strings they issue, and `send_data`
returns the `(job_id, data)` pair passed to the `jobsend` primitive.
Python exceptions are modelled by `Except`: every mutator returns the
post-state together with an `Except` outcome, and on the error paths the
returned state equals the input state, because in the source each raise
happens before any registry mutation.
-/

namespace Iron

/-- A Python dict holding a REPL definition or session.  A field is `none`
exactly when the corresponding key is absent from the dict. -/
structure Session where
  language : Option String
  command : Option String
  detect : Option Bool
  mappings : Option (List (String × String × String))
  repl_id : Option Nat
  fns : Option (List (String × String))
  mapped_keys : Option (List String)
deriving DecidableEq, Repr

/-- The empty dict literal, as produced by the no-match branch of
`get_repl_template`. -/
def emptySession : Session :=
  { language := none, command := none, detect := none, mappings := none,
    repl_id := none, fns := none, mapped_keys := none }

/-- Python truthiness of a dict: truthy iff it has at least one key. -/
def truthy (s : Session) : Bool :=
  s.language.isSome || s.command.isSome || s.detect.isSome || s.mappings.isSome
    || s.repl_id.isSome || s.fns.isSome || s.mapped_keys.isSome

/-- The exceptions the embedded code can raise: `typeError` for subscripting
`None` (no session at all), `keyError` for a missing dict key (missing
`repl_id`, missing `mapped_keys`, or a file type absent from `self.__repl`). -/
inductive IronError where
  | typeError
  | keyError
deriving DecidableEq, Repr

/-- The plugin state: the heap of dict objects, the addresses of the
registered definitions (`available_repls`), and `self.__repl` as an
association list from file type to session address. -/
structure IronState where
  heap : List Session
  available : List Nat
  registry : List (String × Nat)
deriving DecidableEq, Repr

/-- Dereference a heap address (addresses are valid by construction; out of
range defaults to the empty dict). -/
def heapGet (st : IronState) (a : Nat) : Session :=
  st.heap.getD a emptySession

/-- Mutate the dict object at address `a` in place. -/
def heapModify (st : IronState) (a : Nat) (f : Session → Session) : IronState :=
  { st with heap := st.heap.set a (f (heapGet st a)) }

/-- Association-list lookup, as Python `dict.get` / `ft in self.__repl`. -/
def rlookup : List (String × Nat) → String → Option Nat
  | [], _ => none
  | (k, v) :: rest, ft => if k = ft then some v else rlookup rest ft

/-- Association-list key deletion, as Python `del self.__repl[ft]`. -/
def eraseKey : List (String × Nat) → String → List (String × Nat)
  | [], _ => []
  | (k, v) :: rest, ft =>
    if k = ft then eraseKey rest ft else (k, v) :: eraseKey rest ft

/-- Association-list update with Python dict semantics (`d[k] = v`):
overwrite the existing entry or append a new one. -/
def assocSet : List (String × String) → String → String → List (String × String)
  | [], k, v => [(k, v)]
  | (k0, v0) :: rest, k, v =>
    if k0 = k then (k, v) :: rest else (k0, v0) :: assocSet rest k v

/-- The filter predicate of `get_repl_template`:
`ft == k['language'] and k['detect']()`. -/
def matchesDef (ft : String) (s : Session) : Bool :=
  (s.language == some ft) && (s.detect == some true)

/-- `BaseIron.get_repl_template`: filter `available_repls` by language and
detection, then `len(repls) and repls[0] or {}` — the first matching
definition object, or a freshly allocated empty dict when none matches. -/
def get_repl_template (st : IronState) (ft : String) : IronState × Nat :=
  match st.available.filter (fun a => matchesDef ft (heapGet st a)) with
  | [] => ({ st with heap := st.heap ++ [emptySession] }, st.heap.length)
  | a :: _ => (st, a)

/-- `BaseIron.get_repl_for_ft` (get_or_create): return the stored session if
one exists, otherwise store and return the resolved template. -/
def get_repl_for_ft (st : IronState) (ft : String) : IronState × Nat :=
  match rlookup st.registry ft with
  | some a => (st, a)
  | none =>
    let p := get_repl_template st ft
    ({ p.1 with registry := (ft, p.2) :: p.1.registry }, p.2)

/-- `BaseIron.get_repl`: `self.__repl.get(ft)`. -/
def get_repl (st : IronState) (ft : String) : Option Nat :=
  rlookup st.registry ft

/-- `BaseIron.set_repl_id` (attach_job): `self.__repl[ft]['repl_id'] = repl_id`.
Raises `KeyError` when no session exists for `ft`.  (The subsequent
`set_variable` call is a host side effect outside the registry and is not
modelled.) -/
def set_repl_id (st : IronState) (ft : String) (rid : Nat) :
    IronState × Except IronError Unit :=
  match rlookup st.registry ft with
  | none => (st, Except.error IronError.keyError)
  | some a =>
    (heapModify st a (fun s => { s with repl_id := some rid }), Except.ok ())

/-- Resolution of the target session in `send_data`:
`repl = repl or self.get_current_repl()` — an explicit argument is kept only
when it is truthy, otherwise the current file type's session is looked up. -/
def sendTarget (st : IronState) (curft : String) (replArg : Option Nat) :
    Option Nat :=
  match replArg with
  | some a => if truthy (heapGet st a) then some a else rlookup st.registry curft
  | none => rlookup st.registry curft

/-- `BaseIron.send_data`: subscripting `repl["repl_id"]` raises `TypeError`
when the target is `None` and `KeyError` when the key is absent; otherwise
the host primitive `jobsend(repl_id, data)` is invoked — returned here as the
`(job id, data)` pair, the data string passed through unmodified. -/
def send_data (st : IronState) (curft : String) (data : String)
    (replArg : Option Nat) : Except IronError (Nat × String) :=
  match sendTarget st curft replArg with
  | none => Except.error IronError.typeError
  | some a =>
    match (heapGet st a).repl_id with
    | none => Except.error IronError.keyError
    | some rid => Except.ok (rid, data)

/-- The `nnoremap` command string built by `set_mappings` for key `k` and
function name `n`. -/
def base_cmd (k n : String) : String :=
  "nnoremap <silent> " ++ k ++ " :call IronSendSpecial(" ++ "\"" ++ n
    ++ "\"" ++ ")<CR>"

/-- `BaseIron.set_mappings` (bind_special_functions): raises `KeyError` when
no session exists for `ft`; otherwise resets `fns` and `mapped_keys` on the
session object and, for each `(k, n, c)` triple of the `repl` argument's
mapping list in order, issues the `nnoremap` command, records `fns[n] = c`,
and appends `k` to `mapped_keys`.  Returns the issued commands in order. -/
def set_mappings (st : IronState) (replAddr : Nat) (ft : String) :
    IronState × Except IronError (List String) :=
  match rlookup st.registry ft with
  | none => (st, Except.error IronError.keyError)
  | some a =>
    let ms := (heapGet st replAddr).mappings.getD []
    (heapModify st a (fun s =>
      { s with
        fns := some (ms.foldl (fun d t => assocSet d t.2.1 t.2.2) []),
        mapped_keys := some (ms.map (fun t => t.1)) }),
     Except.ok (ms.map (fun t => base_cmd t.1 t.2.1)))

/-- `BaseIron.clear_repl_for_ft`: `self.__repl[ft]['mapped_keys']` raises
`KeyError` when `ft` has no session or the session has no `mapped_keys` key;
otherwise one `umap` command is issued per mapped key in order and the entry
is deleted from the registry.  Returns the issued commands in order. -/
def clear_repl_for_ft (st : IronState) (ft : String) :
    IronState × Except IronError (List String) :=
  match rlookup st.registry ft with
  | none => (st, Except.error IronError.keyError)
  | some a =>
    match (heapGet st a).mapped_keys with
    | none => (st, Except.error IronError.keyError)
    | some ks =>
      ({ st with registry := eraseKey st.registry ft },
       Except.ok (ks.map (fun m => "umap " ++ m)))

/-- `BaseIron.__init__`: the registry starts as the empty dict `{}` over a
given definition table. -/
def initState (heap : List Session) (available : List Nat) : IronState :=
  { heap := heap, available := available, registry := [] }

/-- The file-type keys currently present in the registry. -/
def registryKeys (st : IronState) : List String :=
  st.registry.map Prod.fst

/-! ## Concrete states used by witnesses and counterexamples -/

/-- A registered Python REPL definition, as a dict in `available_repls`. -/
def pyDef : Session :=
  { language := some "python", command := some "python3", detect := some true,
    mappings := some [("-x", "run", "cmd")], repl_id := none, fns := none,
    mapped_keys := none }

/-- A second Python definition, registered after `pyDef`. -/
def pyDef2 : Session :=
  { pyDef with command := some "python2" }

/-- A registered Lua REPL definition whose detection succeeds. -/
def luaDef : Session :=
  { language := some "lua", command := some "lua", detect := some true,
    mappings := some [], repl_id := none, fns := none, mapped_keys := none }

/-- A live Python session with job id 7 attached. -/
def pyLive : Session :=
  { pyDef with repl_id := some 7 }

/-- State with a live Python session (job id 7) registered for "python". -/
def stLive : IronState :=
  { heap := [pyLive], available := [0], registry := [("python", 0)] }

/-- State whose heap holds an empty placeholder dict at address 0 and a live
Python session at address 1, registered for "python". -/
def stFalsy : IronState :=
  { heap := [emptySession, pyLive], available := [], registry := [("python", 1)] }

/-- State where the registry maps "lua" to the empty placeholder session. -/
def stPlaceholder : IronState :=
  { heap := [emptySession], available := [], registry := [("lua", 0)] }

/-- State with two matching Python definitions registered, `pyDef` first. -/
def stTwo : IronState :=
  { heap := [pyDef, pyDef2], available := [0, 1], registry := [] }

/-- State after requesting a "python" session in a fresh registry over the
single definition `pyDef` (the session is `pyDef` itself, at address 0). -/
def st5a : IronState :=
  (get_repl_for_ft (initState [pyDef] [0]) "python").1

/-- State after attaching job id 42 to the "python" session of `st5a`. -/
def st5b : IronState :=
  (set_repl_id st5a "python" 42).1

/-- State after binding the special functions of the definition (address 0)
for "python" in `st5b`. -/
def st5c : IronState :=
  (set_mappings st5b 0 "python").1

/-- Result of clearing "python" in `st5c`. -/
def clear5 : IronState × Except IronError (List String) :=
  clear_repl_for_ft st5c "python"

/-- Result of requesting a "python" session again after the clear. -/
def st5d : IronState × Nat :=
  get_repl_for_ft clear5.1 "python"

/-! ## Helper lemmas -/

theorem sendTarget_none (st : IronState) (curft : String) :
    sendTarget st curft none = rlookup st.registry curft := rfl

theorem rlookup_eq_none_iff (l : List (String × Nat)) (ft : String) :
    rlookup l ft = none ↔ ft ∉ l.map Prod.fst := by
  induction l with
  | nil => simp [rlookup]
  | cons p t ih =>
    obtain ⟨k, v⟩ := p
    by_cases hk : k = ft
    · subst hk
      simp [rlookup]
    · simp only [rlookup, if_neg hk, List.map_cons, List.mem_cons]
      rw [ih]
      constructor
      · intro h hmem
        rcases hmem with h1 | h2
        · exact hk h1.symm
        · exact h h2
      · intro h h2
        exact h (Or.inr h2)

theorem eraseKey_sublist (l : List (String × Nat)) (ft : String) :
    List.Sublist (eraseKey l ft) l := by
  induction l with
  | nil => simp [eraseKey]
  | cons p t ih =>
    obtain ⟨k, v⟩ := p
    by_cases hk : k = ft
    · simp only [eraseKey, hk, if_pos rfl]
      exact ih.cons _
    · simp only [eraseKey, if_neg hk]
      exact ih.cons₂ _

theorem getD_append_singleton (l : List Session) (x : Session) :
    (l ++ [x]).getD l.length emptySession = x := by
  induction l with
  | nil => rfl
  | cons a t ih => simp [List.getD_cons_succ, ih]

theorem getD_set_self (l : List Session) (n : Nat) (v : Session)
    (h : n < l.length) :
    (l.set n v).getD n emptySession = v := by
  induction l generalizing n with
  | nil => simp at h
  | cons a t ih =>
    cases n with
    | zero => simp [List.getD_cons_zero]
    | succ m =>
      simp only [List.set_cons_succ, List.getD_cons_succ]
      exact ih m (by simpa using h)

theorem heapGet_heapModify_self (st : IronState) (a : Nat) (f : Session → Session)
    (h : a < st.heap.length) :
    heapGet (heapModify st a f) a = f (heapGet st a) := by
  simp only [heapGet, heapModify]
  exact getD_set_self st.heap a (f (st.heap.getD a emptySession)) h

theorem registry_heapModify (st : IronState) (a : Nat) (f : Session → Session) :
    (heapModify st a f).registry = st.registry := rfl

theorem registry_set_repl_id (st : IronState) (ft : String) (rid : Nat) :
    (set_repl_id st ft rid).1.registry = st.registry := by
  unfold set_repl_id
  cases rlookup st.registry ft <;> rfl

theorem registry_set_mappings (st : IronState) (replAddr : Nat) (ft : String) :
    (set_mappings st replAddr ft).1.registry = st.registry := by
  unfold set_mappings
  cases rlookup st.registry ft <;> rfl

theorem rlookup_get_repl_for_ft (st : IronState) (ft : String) :
    rlookup (get_repl_for_ft st ft).1.registry ft = some (get_repl_for_ft st ft).2 := by
  unfold get_repl_for_ft
  cases h : rlookup st.registry ft with
  | some a => simp [h]
  | none => simp [rlookup]

theorem filter_eq_cons_of_first {α : Type} (p : α → Bool) :
    ∀ (l : List α) (i : Nat) (hi : i < l.length),
      p (l.get ⟨i, hi⟩) = true →
      (∀ (k : Nat) (hk : k < l.length), k < i → p (l.get ⟨k, hk⟩) = false) →
      ∃ t, l.filter p = l.get ⟨i, hi⟩ :: t := by
  intro l
  induction l with
  | nil =>
    intro i hi
    simp at hi
  | cons a tl ih =>
    intro i hi hp hfirst
    cases i with
    | zero =>
      refine ⟨tl.filter p, ?_⟩
      simp only [List.get] at hp
      simp [List.filter_cons, hp]
    | succ m =>
      have ha : p a = false := hfirst 0 (by simp) (Nat.succ_pos m)
      have hm : m < tl.length := by simpa using hi
      have hp2 : p (tl.get ⟨m, hm⟩) = true := by
        simpa [List.get] using hp
      have hf2 : ∀ (k : Nat) (hk : k < tl.length), k < m →
          p (tl.get ⟨k, hk⟩) = false := by
        intro k hk hkm
        have := hfirst (k + 1) (by simpa using Nat.succ_lt_succ hk)
          (Nat.succ_lt_succ hkm)
        simpa [List.get] using this
      obtain ⟨t, ht⟩ := ih m hm hp2 hf2
      refine ⟨t, ?_⟩
      simp [List.filter_cons, ha, ht, List.get]

theorem registry_get_repl_template (st : IronState) (ft : String) :
    (get_repl_template st ft).1.registry = st.registry := by
  unfold get_repl_template
  cases st.available.filter (fun a => matchesDef ft (heapGet st a)) <;> rfl

theorem get_repl_for_ft_of_some (st : IronState) (ft : String) (a : Nat)
    (h : rlookup st.registry ft = some a) :
    get_repl_for_ft st ft = (st, a) := by
  simp [get_repl_for_ft, h]

theorem registry_clear_cases (st : IronState) (ft : String) :
    (clear_repl_for_ft st ft).1.registry = st.registry
    ∨ (clear_repl_for_ft st ft).1.registry = eraseKey st.registry ft := by
  unfold clear_repl_for_ft
  split
  · exact Or.inl rfl
  · split
    · exact Or.inl rfl
    · exact Or.inr rfl

/-! ## Claims -/

/-- Claim C1: for every session state and data string, `send_data` raises an
error exactly when the target session is absent or has no `repl_id` attached;
otherwise it forwards the data string unmodified to the host `jobsend`
primitive together with that session's job identifier. -/
theorem send_data_error_iff_no_active_session (st : IronState)
    (curft data : String) (r : Option Nat) :
    ((∃ e, send_data st curft data r = Except.error e) ↔
      sendTarget st curft r = none ∨
        ∃ a, sendTarget st curft r = some a ∧ (heapGet st a).repl_id = none)
    ∧ (∀ a rid, sendTarget st curft r = some a →
        (heapGet st a).repl_id = some rid →
        send_data st curft data r = Except.ok (rid, data)) := by
  constructor
  · cases h : sendTarget st curft r with
    | none => simp [send_data, h]
    | some a =>
      cases hr : (heapGet st a).repl_id with
      | none => simp [send_data, h, hr]
      | some rid => simp [send_data, h, hr]
  · intro a rid ha hrid
    simp [send_data, ha, hrid]

/-- Witness for C1: in `stLive`, sending "print(1)" with no explicit session
argument forwards exactly `(7, "print(1)")` to the host. -/
theorem send_data_error_iff_no_active_session_witness :
    send_data stLive "python" "print(1)" none = Except.ok (7, "print(1)") :=
  (send_data_error_iff_no_active_session stLive "python" "print(1)" none).2
    0 7 (by decide) (by decide)

/-- Claim C2: for a file type with no registered definition whose language
matches and whose detection succeeds (and no stored session yet),
`get_repl_for_ft` stores the empty placeholder session in the registry under
that file type and returns it; the operation is total, so no exception is
raised. -/
theorem get_or_create_no_match_placeholder (st : IronState) (ft : String)
    (h1 : rlookup st.registry ft = none)
    (h2 : ∀ a ∈ st.available, matchesDef ft (heapGet st a) = false) :
    heapGet (get_repl_for_ft st ft).1 (get_repl_for_ft st ft).2 = emptySession
    ∧ rlookup (get_repl_for_ft st ft).1.registry ft
        = some (get_repl_for_ft st ft).2 := by
  have hf : st.available.filter (fun a => matchesDef ft (heapGet st a)) = [] := by
    rw [List.filter_eq_nil_iff]
    intro a ha
    simp [h2 a ha]
  refine ⟨?_, rlookup_get_repl_for_ft st ft⟩
  simp only [get_repl_for_ft, get_repl_template, h1, hf]
  exact getD_append_singleton st.heap emptySession

/-- Witness for C2: with only a Lua definition registered, requesting a
session for "python" stores and returns the placeholder. -/
theorem get_or_create_no_match_placeholder_witness :
    heapGet (get_repl_for_ft (initState [luaDef] [0]) "python").1
        (get_repl_for_ft (initState [luaDef] [0]) "python").2 = emptySession
    ∧ rlookup (get_repl_for_ft (initState [luaDef] [0]) "python").1.registry
        "python" = some (get_repl_for_ft (initState [luaDef] [0]) "python").2 :=
  get_or_create_no_match_placeholder (initState [luaDef] [0]) "python"
    (by decide) (by decide)

/-- Claim C7: clearing a file type with no session in the registry fails with
the `KeyError` of `self.__repl[ft]`, returned to the caller with the state
unchanged — never a silent no-op. -/
theorem clear_unknown_file_type (st : IronState) (ft : String)
    (h : rlookup st.registry ft = none) :
    clear_repl_for_ft st ft = (st, Except.error IronError.keyError) := by
  simp [clear_repl_for_ft, h]

/-- Witness for C7: clearing "python" in the freshly initialised registry
raises `KeyError`. -/
theorem clear_unknown_file_type_witness :
    clear_repl_for_ft (initState [] []) "python"
      = (initState [] [], Except.error IronError.keyError) :=
  clear_unknown_file_type (initState [] []) "python" (by decide)

/-- Claim C9: an explicitly supplied session argument that is falsy (such as
the empty placeholder dict) is discarded by `repl or self.get_current_repl()`,
so `send_data` targets the current file type's session instead. -/
theorem send_falsy_session_arg_ignored (st : IronState) (curft data : String)
    (a : Nat) (h : truthy (heapGet st a) = false) :
    sendTarget st curft (some a) = rlookup st.registry curft
    ∧ send_data st curft data (some a) = send_data st curft data none := by
  have ht : sendTarget st curft (some a) = rlookup st.registry curft := by
    simp [sendTarget, h]
  exact ⟨ht, by simp only [send_data, ht, sendTarget_none]⟩

/-- Witness for C9: in `stFalsy` the explicit placeholder argument (address 0)
is ignored and the data goes to the live "python" session. -/
theorem send_falsy_session_arg_ignored_witness :
    sendTarget stFalsy "python" (some 0) = rlookup stFalsy.registry "python"
    ∧ send_data stFalsy "python" "1 + 1" (some 0)
        = send_data stFalsy "python" "1 + 1" none :=
  send_falsy_session_arg_ignored stFalsy "python" "1 + 1" 0 (by decide)

/-- Claim C10: clearing a file type whose stored session has no `mapped_keys`
key raises `KeyError` before any deletion: the state (and so the registry,
with the session still in it) is returned unchanged. -/
theorem clear_missing_mapped_keys_raises (st : IronState) (ft : String) (a : Nat)
    (h1 : rlookup st.registry ft = some a)
    (h2 : (heapGet st a).mapped_keys = none) :
    clear_repl_for_ft st ft = (st, Except.error IronError.keyError) := by
  simp [clear_repl_for_ft, h1, h2]

/-- Witness for C10: clearing "lua", whose session is the empty placeholder,
raises `KeyError` and leaves the registry unchanged. -/
theorem clear_missing_mapped_keys_raises_witness :
    clear_repl_for_ft stPlaceholder "lua"
      = (stPlaceholder, Except.error IronError.keyError) :=
  clear_missing_mapped_keys_raises stPlaceholder "lua" 0 (by decide) (by decide)

/-- Claim C3: when at least two registered definitions match (position `i`
first, position `j` later in `available_repls` order), `get_repl_template`
returns the definition registered first, leaves the state unchanged, and
therefore returns the same definition on a repeated call. -/
theorem resolve_returns_first_match (st : IronState) (ft : String) (i j : Nat)
    (hi : i < st.available.length) (hj : j < st.available.length) (_hij : i < j)
    (hmi : matchesDef ft (heapGet st (st.available.get ⟨i, hi⟩)) = true)
    (_hmj : matchesDef ft (heapGet st (st.available.get ⟨j, hj⟩)) = true)
    (hfirst : ∀ (k : Nat) (hk : k < st.available.length), k < i →
      matchesDef ft (heapGet st (st.available.get ⟨k, hk⟩)) = false) :
    get_repl_template st ft = (st, st.available.get ⟨i, hi⟩)
    ∧ get_repl_template (get_repl_template st ft).1 ft
        = get_repl_template st ft := by
  obtain ⟨t, ht⟩ := filter_eq_cons_of_first
    (fun a => matchesDef ft (heapGet st a)) st.available i hi hmi hfirst
  have h1 : get_repl_template st ft = (st, st.available.get ⟨i, hi⟩) := by
    simp [get_repl_template, ht]
  refine ⟨h1, ?_⟩
  rw [h1]
  exact h1

/-- Witness for C3: with the two matching definitions of `stTwo`, resolution
returns the one registered first (address 0), and again on a second call. -/
theorem resolve_returns_first_match_witness :
    get_repl_template stTwo "python" = (stTwo, 0)
    ∧ get_repl_template (get_repl_template stTwo "python").1 "python"
        = get_repl_template stTwo "python" :=
  resolve_returns_first_match stTwo "python" 0 1 (by decide) (by decide)
    (by decide) (by decide) (by decide)
    (fun k hk hlt => absurd hlt (Nat.not_lt_zero k))

/-- Claim C4: `get_repl_for_ft` is idempotent — a second call for the same
file type returns the identical stored session and leaves the state
unchanged, including after a job identifier was attached in between. -/
theorem get_or_create_idempotent (st : IronState) (ft : String) (rid : Nat) :
    get_repl_for_ft (get_repl_for_ft st ft).1 ft = get_repl_for_ft st ft
    ∧ get_repl_for_ft (set_repl_id (get_repl_for_ft st ft).1 ft rid).1 ft
        = ((set_repl_id (get_repl_for_ft st ft).1 ft rid).1,
           (get_repl_for_ft st ft).2) := by
  have h1 := rlookup_get_repl_for_ft st ft
  have h2 : rlookup (set_repl_id (get_repl_for_ft st ft).1 ft rid).1.registry ft
      = some (get_repl_for_ft st ft).2 := by
    rw [registry_set_repl_id]
    exact h1
  constructor
  · rw [get_repl_for_ft_of_some _ ft _ h1]
  · exact get_repl_for_ft_of_some _ ft _ h2

/-- Claim C5, counterexample evaluation: starting from a fresh registry over
the single definition `pyDef`, the sequence get_or_create("python"),
attach job 42, bind_special_functions, clear("python"), get_or_create("python")
succeeds (the clear unmaps "-x" and empties the registry), yet the re-created
session still carries `repl_id = 42`: the registry stores the very definition
object of `available_repls`, which `set_repl_id` mutated, so the job
identifier survives the clear instead of being absent. -/
theorem clear_then_recreate_retains_job_id :
    clear5.2 = Except.ok ["umap -x"]
    ∧ rlookup clear5.1.registry "python" = none
    ∧ (heapGet st5d.1 st5d.2).repl_id = some 42 :=
  ⟨rfl, by decide, by decide⟩

/-- Claim C6: binding the special functions of a definition with mapping list
`ms` and then clearing issues exactly the `umap` requests for the keys of
`ms`, one per bound key, in the order of the mapping list (the binding itself
issues one `nnoremap` per triple in the same order). -/
theorem bind_then_clear_unmaps_in_order (st : IronState) (ft : String)
    (a replAddr : Nat) (ms : List (String × String × String))
    (ha : a < st.heap.length)
    (hreg : rlookup st.registry ft = some a)
    (hms : (heapGet st replAddr).mappings = some ms) :
    (set_mappings st replAddr ft).2
      = Except.ok (ms.map (fun t => base_cmd t.1 t.2.1))
    ∧ (clear_repl_for_ft (set_mappings st replAddr ft).1 ft).2
      = Except.ok (ms.map (fun t => "umap " ++ t.1)) := by
  have hsm : (set_mappings st replAddr ft).1
      = heapModify st a (fun s =>
        { s with
          fns := some (ms.foldl (fun d t => assocSet d t.2.1 t.2.2) []),
          mapped_keys := some (ms.map (fun t => t.1)) }) := by
    simp [set_mappings, hreg, hms]
  have hcmds : (set_mappings st replAddr ft).2
      = Except.ok (ms.map (fun t => base_cmd t.1 t.2.1)) := by
    simp [set_mappings, hreg, hms]
  have hk : (heapGet (set_mappings st replAddr ft).1 a).mapped_keys
      = some (ms.map (fun t => t.1)) := by
    rw [hsm, heapGet_heapModify_self st a _ ha]
  have hreg1 : rlookup (set_mappings st replAddr ft).1.registry ft = some a := by
    rw [registry_set_mappings]
    exact hreg
  refine ⟨hcmds, ?_⟩
  simp [clear_repl_for_ft, hreg1, hk, List.map_map, Function.comp]

/-- Witness for C6: binding `pyDef`'s single mapping for "python" in `stLive`
and then clearing issues exactly the unmap request for "-x". -/
theorem bind_then_clear_unmaps_in_order_witness :
    (set_mappings stLive 0 "python").2
      = Except.ok ([("-x", "run", "cmd")].map (fun t => base_cmd t.1 t.2.1))
    ∧ (clear_repl_for_ft (set_mappings stLive 0 "python").1 "python").2
      = Except.ok ([("-x", "run", "cmd")].map (fun t => "umap " ++ t.1)) :=
  bind_then_clear_unmaps_in_order stLive "python" 0 0 [("-x", "run", "cmd")]
    (by decide) (by decide) (by decide)

/-- Claim C8: the registry keeps at most one session per file-type key — the
freshly initialised registry has no duplicate keys, and each operation
(get_or_create, attach_job, bind_special_functions, clear) preserves
key uniqueness. -/
theorem registry_at_most_one_session_per_ft (st : IronState) (ft : String)
    (rid replAddr : Nat) (heap0 : List Session) (avail0 : List Nat)
    (h : (registryKeys st).Nodup) :
    (registryKeys (initState heap0 avail0)).Nodup
    ∧ (registryKeys (get_repl_for_ft st ft).1).Nodup
    ∧ (registryKeys (set_repl_id st ft rid).1).Nodup
    ∧ (registryKeys (set_mappings st replAddr ft).1).Nodup
    ∧ (registryKeys (clear_repl_for_ft st ft).1).Nodup := by
  refine ⟨by simp [initState, registryKeys], ?_, ?_, ?_, ?_⟩
  · cases hq : rlookup st.registry ft with
    | some a =>
      rw [get_repl_for_ft_of_some st ft a hq]
      exact h
    | none =>
      have hmem : ft ∉ st.registry.map Prod.fst :=
        (rlookup_eq_none_iff st.registry ft).mp hq
      simp only [get_repl_for_ft, hq, registryKeys, List.map_cons]
      rw [registry_get_repl_template]
      exact List.nodup_cons.mpr ⟨hmem, h⟩
  · unfold registryKeys
    rw [registry_set_repl_id]
    exact h
  · unfold registryKeys
    rw [registry_set_mappings]
    exact h
  · rcases registry_clear_cases st ft with hc | hc
    · unfold registryKeys
      rw [hc]
      exact h
    · unfold registryKeys
      rw [hc]
      exact List.Nodup.sublist
        ((eraseKey_sublist st.registry ft).map Prod.fst) h

/-- Witness for C8: key uniqueness holds in `stLive` and is preserved by each
operation applied to it. -/
theorem registry_at_most_one_session_per_ft_witness :
    (registryKeys stLive).Nodup
    ∧ ((registryKeys (initState [] [])).Nodup
      ∧ (registryKeys (get_repl_for_ft stLive "python").1).Nodup
      ∧ (registryKeys (set_repl_id stLive "python" 42).1).Nodup
      ∧ (registryKeys (set_mappings stLive 0 "python").1).Nodup
      ∧ (registryKeys (clear_repl_for_ft stLive "python").1).Nodup) :=
  ⟨by decide,
   registry_at_most_one_session_per_ft stLive "python" 42 0 [] [] (by decide)⟩

end Iron
